import Mathlib

/-!
Verification development for the har2openapi traffic-to-specification
pipeline (src/lib.ts).  The JavaScript data is shallowly embedded:

* JSON values are the inductive `Json` (numbers restricted to integers,
  which is all the pipeline's claims exercise).
* JavaScript objects are insertion-ordered association lists
  `List (String × _)`; assignment to an existing key updates it in place
  (`updEntry`), assignment to a fresh key appends (`setKey`).
* The uniform wrapper written by the code around every stored example
  (`exampleName -> { value: v }`) is left implicit: an examples map is
  modelled as `name -> v` with the raw value, matching what the curated
  example file itself contains (writeExamples exports the raw values).
* Thrown-and-caught exceptions inside a function are modelled by the
  state the function leaves behind at the throw point; uncaught throws
  and `exit(1)` make the modelled function return `none`.
-/

/-- JSON values as parsed by `JSON.parse`.  Object fields keep insertion
order, as JavaScript objects do.  Numbers are modelled as integers. -/
inductive Json where
  | null : Json
  | bool (b : Bool) : Json
  | num (n : Int) : Json
  | str (s : String) : Json
  | arr (items : List Json) : Json
  | obj (fields : List (String × Json)) : Json

/-- Fields of a JSON object; non-objects expose no fields.  (JavaScript
strings expose character-index keys; no code path the claims exercise
merges a top-level string, so these are not modelled.) -/
def fieldsOf : Json → List (String × Json)
  | Json.obj fs => fs
  | _ => []

/-- The number of own enumerable keys `Object.keys(v).length` sees. -/
def topKeyCount : Json → Nat
  | Json.obj fs => fs.length
  | Json.arr xs => xs.length
  | Json.str s => s.length
  | _ => 0

/-- deepmerge's `isMergeableObject`: plain objects and arrays merge,
everything else (including `null`) is copied wholesale. -/
def isMergeable : Json → Bool
  | Json.obj _ => true
  | Json.arr _ => true
  | _ => false

/-- JavaScript truthiness of a JSON value. -/
def jsTruthy : Json → Bool
  | Json.null => false
  | Json.bool b => b
  | Json.num n => n != 0
  | Json.str s => s ≠ ""
  | Json.arr _ => true
  | Json.obj _ => true

/-- The strict comparison `v === null`. -/
def isNullJson : Json → Bool
  | Json.null => true
  | _ => false

/-- Property read `v[k]`; `none` models the JavaScript `undefined`. -/
def jsGet (v : Json) (k : String) : Option Json :=
  match v with
  | Json.obj fs => List.lookup k fs
  | _ => none

/-- The JavaScript `delete v[k]` (a no-op on non-objects). -/
def deleteKey (v : Json) (k : String) : Json :=
  match v with
  | Json.obj fs => Json.obj (fs.filter (fun kv => kv.1 ≠ k))
  | other => other

/-- Assignment `obj[k] = v` when `k` is already present: the first entry
with that key is replaced in place, everything else is untouched. -/
def updEntry {β : Type} : List (String × β) → String → β → List (String × β)
  | [], _, _ => []
  | (k, v) :: rest, key, nv =>
    if k = key then (key, nv) :: rest else (k, v) :: updEntry rest key nv

/-- Assignment `obj[k] = v` in general: update the key if present,
append it otherwise (JavaScript insertion order). -/
def setKey {β : Type} (l : List (String × β)) (k : String) (v : β) : List (String × β) :=
  if (List.lookup k l).isSome then updEntry l k v else l ++ [(k, v)]

mutual

/-- The `deepmerge` call `merge(target, source, \x7b arrayMerge: overwriteMerge \x7d)`
from src/lib.ts lines 583/650 with `overwriteMerge = (d, s) => s`
(line 670): arrays from the source replace the target's wholesale,
mismatched array/non-array pairs take the source, and two non-arrays go
through `mergeObject` (target keys first, then new source keys; shared
keys recurse when the source value is mergeable, otherwise the source
value wins).  `merge(x, null)` throws in deepmerge (`Object.keys(null)`);
the embedded call sites of lib.ts never reach that case (they catch or
guard first), so the scalar-source equations only cover states the code
reaches. -/
def jsMerge : Json → Json → Json
  | Json.arr _, Json.arr ys => Json.arr ys
  | Json.arr _, s => s
  | _, Json.arr ys => Json.arr ys
  | Json.obj tf, Json.obj sf =>
    Json.obj (mergeTargetFields tf sf ++ sf.filter (fun kv => (List.lookup kv.1 tf).isNone))
  | _, Json.obj sf => Json.obj sf
  | Json.obj tf, _ => Json.obj tf
  | _, _ => Json.obj []

/-- The target-keys pass of deepmerge's `mergeObject`: every target key
keeps its position; a key also present in the source recurses when the
source value is mergeable and is overwritten otherwise. -/
def mergeTargetFields : List (String × Json) → List (String × Json) → List (String × Json)
  | [], _ => []
  | (k, v) :: rest, sf =>
    (match List.lookup k sf with
     | some sv => (k, if isMergeable sv then jsMerge v sv else sv)
     | none => (k, v)) :: mergeTargetFields rest sf

end

/-- Escaping of quote and backslash for `JSON.stringify` of a string
(control-character escapes are not needed by any claim). -/
def escapeJsonChars : List Char → List Char
  | [] => []
  | c :: rest =>
    if c = '"' ∨ c = '\\' then '\\' :: c :: escapeJsonChars rest
    else c :: escapeJsonChars rest

mutual

/-- `JSON.stringify` (no spacing), used by lib.ts for duplicate-example
detection. -/
def stringify : Json → String
  | Json.null => "null"
  | Json.bool true => "true"
  | Json.bool false => "false"
  | Json.num n => toString n
  | Json.str s => "\"" ++ String.mk (escapeJsonChars s.data) ++ "\""
  | Json.arr xs => "[" ++ stringifyItems xs ++ "]"
  | Json.obj fs => "\x7b" ++ stringifyFields fs ++ "\x7d"

/-- Comma-separated serialization of array items. -/
def stringifyItems : List Json → String
  | [] => ""
  | [x] => stringify x
  | x :: rest => stringify x ++ "," ++ stringifyItems rest

/-- Comma-separated serialization of object fields. -/
def stringifyFields : List (String × Json) → String
  | [] => ""
  | [(k, v)] => "\"" ++ String.mk (escapeJsonChars k.data) ++ "\":" ++ stringify v
  | (k, v) :: rest =>
    "\"" ++ String.mk (escapeJsonChars k.data) ++ "\":" ++ stringify v ++ "," ++ stringifyFields rest

end

/-- Zero padding `pad` from src/lib.ts line 43: pad `m` with zeros on the
left up to `width` digits (no truncation when already long enough). -/
def pad (m width : Nat) : String :=
  let n := toString m
  if width ≤ n.length then n
  else String.mk (List.replicate (width - n.length) '0') ++ n

/-- Fueled replacement core of `String.prototype.replace` with a global
literal pattern: scan left to right, replace each non-overlapping
occurrence, continue after the replaced segment (the replacement is not
rescanned).  An empty pattern inserts the replacement at every position,
as the JavaScript empty regex does.  Every recursive call strictly
shortens the scanned list, so the structural fuel `s.length + 1` used by
`replaceSeg` is never exhausted. -/
def replaceSegFuel : Nat → List Char → List Char → List Char → List Char
  | 0, s, _, _ => s
  | fuel + 1, s, p, r =>
    match s with
    | [] => if p.isEmpty then r else []
    | c :: rest =>
      if p ≠ [] ∧ p.isPrefixOf (c :: rest) = true then
        r ++ replaceSegFuel fuel (List.drop p.length (c :: rest)) p r
      else if p.isEmpty then r ++ c :: replaceSegFuel fuel rest p r
      else c :: replaceSegFuel fuel rest p r

/-- Left-to-right global replacement of the literal pattern `p` by `r`. -/
def replaceSeg (s p r : List Char) : List Char :=
  replaceSegFuel (s.length + 1) s p r

/-- The JavaScript `url.replace(new RegExp(key, 'g'), value)` for one
configured rule.  Patterns are modelled as literal strings (the claims
about `filterUrl` only exercise literal substitution). -/
def replaceAllStr (s pat repl : String) : String :=
  String.mk (replaceSeg s.data pat.data repl.data)

/-- `String.prototype.includes`. -/
def containsSeg (s p : List Char) : Bool :=
  match s with
  | [] => p.isEmpty
  | c :: rest => p.isPrefixOf (c :: rest) || containsSeg rest p

/-- Substring test `s.includes(sub)` used for tag rules and the
`gexample` publication marker. -/
def strContains (s sub : String) : Bool :=
  containsSeg s.data sub.data

/-- Path normalizer `filterUrl` from src/lib.ts lines 400-410: applies
the configured ordered pattern-to-replacement rules to the URL, each
globally, in order. -/
def filterUrl (pathReplace : List (String × String)) (inputUrl : String) : String :=
  pathReplace.foldl (fun u kv => replaceAllStr u kv.1 kv.2) inputUrl

/-- The `application/json` content slot of a request or response body:
a schema plus the insertion-ordered examples map (each example's
`\x7b value: v \x7d` wrapper is implicit, see the header comment). -/
structure JsonContent where
  schema : Json := Json.obj [("properties", Json.obj []), ("type", Json.str "object")]
  examples : List (String × Json) := []

/-- A request body slot: either the JSON content created by
`mergeRequestExample` for textual bodies, or the fixed
`multipart/form-data` file-upload schema shape it creates for binary
payloads (src/lib.ts lines 593-610). -/
inductive RequestBody where
  | jsonContent (c : JsonContent) : RequestBody
  | multipartContent : RequestBody

/-- One entry of an operation's `responses` map. -/
structure ResponseObj where
  description : Option String := none
  content : Option JsonContent := none

/-- The operation object built by `addMethod`/`generateSchema` and
mutated by the merge engine.  `meta.originalPath` and `meta.element`
are flattened into fields; `metaElement = none` models a `meta` object
with no `element` key. -/
structure SpecMethod where
  operationId : String := ""
  summary : String := ""
  description : Json := Json.str ""
  parameters : List Json := []
  responses : List (String × ResponseObj) := []
  tags : List String := []
  metaOriginalPath : String := ""
  metaElement : Option Json := none
  requestBody : Option RequestBody := none

/-- Response classifier `addResponse` from src/lib.ts lines 144-213: a
fixed table over (status, method) writing a fresh
`\x7b description \x7d` object into the responses map; combinations
outside the table leave the map untouched.  Note the `case 204` /
`post` cell of the source stores its entry under the key `"202"`. -/
def addResponse (status : Int) (method : String) (responses : List (String × ResponseObj)) :
    List (String × ResponseObj) :=
  let put := fun (key descText : String) =>
    setKey responses key { description := some descText, content := none }
  if status = 200 then
    if method = "get" then put "200" "Success"
    else if method = "delete" then put "200" "Item deleted"
    else if method = "patch" then put "200" "Item updated"
    else if method = "post" then put "200" "Item created"
    else responses
  else if status = 201 then
    if method = "post" then put "201" "Item created" else responses
  else if status = 202 then
    if method = "post" then put "202" "Item created" else responses
  else if status = 204 then
    if method = "get" then put "204" "Success"
    else if method = "delete" then put "204" "Item deleted"
    else if method = "patch" ∨ method = "put" then put "204" "Item updated"
    else if method = "post" then put "202" "Item created"
    else responses
  else if status = 400 then
    if method = "delete" then put "400" "Deletion failed - item in use"
    else put "400" "Bad request"
  else if status = 401 then put "401" "Unauthorized"
  else if status = 404 then put "404" "Item not found"
  else if status = 405 then put "405" "Not allowed"
  else responses

/-- A request body as it reaches `mergeRequestExample`: `binaryData`
models a falsy `postData.text` (the binary-upload branch),
`malformedData` a non-empty text on which `JSON.parse` throws (the
exception is swallowed by the local catch), `jsonData v` a non-empty
text parsing to `v` (base64 transport decoding happens upstream). -/
inductive RequestPayload where
  | binaryData : RequestPayload
  | malformedData : RequestPayload
  | jsonData (v : Json) : RequestPayload

/-- A response body as it reaches `mergeResponseExample`. -/
inductive ResponsePayload where
  | malformedBody : ResponsePayload
  | jsonBody (v : Json) : ResponsePayload

/-- The shared fold step of src/lib.ts lines 575-588 and 642-655 on an
existing examples map: discard serialized duplicates (lines 576-580);
otherwise deep-merge the value into the `example-0001` accumulator
(line 583) and append it as a fresh example named with the 4-wide
zero-padded successor of the current map size (line 586).  A missing
`example-0001` key would make the accumulator access throw into the
enclosing catch (state unchanged); deepmerge itself throws on a `null`
source, also caught, so a `null` value leaves the map unchanged. -/
def foldJsonIntoExamples (c : JsonContent) (data : Json) : JsonContent :=
  if c.examples.any (fun kv => stringify kv.2 == stringify data) then c
  else
    match List.lookup "example-0001" c.examples with
    | none => c
    | some acc =>
      if isNullJson data then c
      else
        let upd := updEntry c.examples "example-0001" (jsMerge acc data)
        { schema := c.schema
        , examples := upd ++ [("example-" ++ pad (upd.length + 1) 4, data)] }

/-- Request example merging, src/lib.ts lines 548-613.  Binary payloads
install the fixed multipart shape once (lines 592-611); JSON payloads
create the content slot on first use (lines 555-571) and then run the
shared fold.  When the slot already holds the multipart shape, the read
of `content["application/json"].examples` (line 573) throws on
`undefined` and the catch at line 590 swallows it: the JSON body is
silently discarded. -/
def mergeRequestExample (m : SpecMethod) (postData : RequestPayload) : SpecMethod :=
  match postData with
  | RequestPayload.binaryData =>
    match m.requestBody with
    | none => { m with requestBody := some RequestBody.multipartContent }
    | some _ => m
  | RequestPayload.malformedData => m
  | RequestPayload.jsonData data =>
    match m.requestBody with
    | some RequestBody.multipartContent => m
    | some (RequestBody.jsonContent c) =>
      { m with requestBody := some (RequestBody.jsonContent (foldJsonIntoExamples c data)) }
    | none =>
      let c0 : JsonContent := { examples := [("example-0001", Json.obj [])] }
      { m with requestBody := some (RequestBody.jsonContent (foldJsonIntoExamples c0 data)) }

/-- Commit phase of `mergeResponseExample` (src/lib.ts lines 649-662)
once the duplicate check has passed: merge into the accumulator, append
the new example, then copy a truthy `description` / `element` field of
the body onto the operation. -/
def respFoldCommit (m : SpecMethod) (statusString : String) (desc : Option String)
    (c : JsonContent) (data : Json) : SpecMethod :=
  match List.lookup "example-0001" c.examples with
  | none => m
  | some acc =>
    let upd := updEntry c.examples "example-0001" (jsMerge acc data)
    let cNew : JsonContent :=
      { schema := c.schema
      , examples := upd ++ [("example-" ++ pad (upd.length + 1) 4, data)] }
    let newResponses := updEntry m.responses statusString
      { description := desc, content := some cNew }
    let m3 := { m with responses := newResponses }
    let m4 := match jsGet data "description" with
      | some dv => if jsTruthy dv then { m3 with description := dv } else m3
      | none => m3
    match jsGet data "element" with
    | some ev => if jsTruthy ev then { m4 with metaElement := some ev } else m4
    | none => m4

/-- Response example merging, src/lib.ts lines 614-669: parse the body
(parse failures are swallowed), strip the `traceback` diagnostic key,
and fold only bodies that are non-null and still have more than one
top-level key.  A status with no entry in the responses map makes the
`['content']` access throw into the catch (no mutation); a missing
content slot is created fresh before folding. -/
def mergeResponseExample (m : SpecMethod) (statusString : String) (content : ResponsePayload) :
    SpecMethod :=
  match content with
  | ResponsePayload.malformedBody => m
  | ResponsePayload.jsonBody raw =>
    let data := deleteKey raw "traceback"
    if isNullJson data = false ∧ 1 < topKeyCount data then
      match List.lookup statusString m.responses with
      | none => m
      | some robj =>
        match robj.content with
        | some c =>
          if c.examples.any (fun kv => stringify kv.2 == stringify data) then m
          else respFoldCommit m statusString robj.description c data
        | none =>
          let c0 : JsonContent := { examples := [("example-0001", Json.obj [])] }
          let createdResponses := updEntry m.responses statusString
            { description := robj.description, content := some c0 }
          let mC := { m with responses := createdResponses }
          if c0.examples.any (fun kv => stringify kv.2 == stringify data) then mC
          else respFoldCommit mC statusString robj.description c0 data
    else m

/-- The slice of one `generateSpec` loop iteration (src/lib.ts line 485)
that decides whether a transaction's request body reaches the request
example pool: only entries with a positive body size whose response
status is below 400 are folded. -/
structure HarRequestEvent where
  bodySize : Int
  status : Int
  postData : RequestPayload

/-- Request-merge guard of src/lib.ts line 485 applied to one captured
transaction. -/
def applyRequestMerge (m : SpecMethod) (e : HarRequestEvent) : SpecMethod :=
  if 0 < e.bodySize ∧ e.status < 400 then mergeRequestExample m e.postData else m


/-- Result record of `validateExampleList` (src/lib.ts lines 870-874). -/
structure ExampleStats where
  allExamples : List String
  publishExamples : List (String × Json)
  firstExample : Option Json

/-- The examples of a pool whose names carry the `gexample` publication
marker, in their original order (the loop at src/lib.ts lines 849-855). -/
def flaggedExamples (exampleObject : List (String × Json)) : List (String × Json) :=
  exampleObject.filter (fun kv => strContains kv.1 "gexample")

/-- Curation validator `validateExampleList` from src/lib.ts lines
844-875.  `none` models the `exit(1)` taken when the pool is non-empty
but nothing is flagged; otherwise the flagged values are renumbered into
`example-<i>` keys padded to width `count / 10 + 1`.  The error-message
arguments of the source carry no information into the result and are
omitted. -/
def validateExampleList (exampleObject : List (String × Json)) : Option ExampleStats :=
  let allExamples := exampleObject.map (fun kv => stringify kv.2)
  let publishArr := (flaggedExamples exampleObject).map (fun kv => kv.2)
  if exampleObject.length ≠ 0 ∧ publishArr.length = 0 then none
  else
    let padWidth := publishArr.length / 10 + 1
    some { allExamples := allExamples
         , publishExamples :=
             publishArr.enum.map (fun iv => ("example-" ++ pad (iv.1 + 1) padWidth, iv.2))
         , firstExample := publishArr.head? }

/-- Operation-id derivation shared by `addMethod` (src/lib.ts line 74)
and `generateSchema` (line 898): strip one leading and one trailing
slash and every brace from the template, turn the remaining slashes
into hyphens and prefix the method. -/
def deriveOperationId (method p : String) : String :=
  let s1 := if p.startsWith "/" then p.drop 1 else p
  let s2 := if s1.endsWith "/" then s1.dropRight 1 else s1
  let s3 := String.mk (s2.data.filter (fun ch => ch ≠ '\x7b' ∧ ch ≠ '\x7d'))
  let s4 := String.mk (s3.data.map (fun ch => if ch = '/' then '-' else ch))
  method ++ "-" ++ s4

/-- One path entry of a specification: the `parameters` key written by
`addPath` plus the method-keyed operation objects. -/
structure PathItem where
  parameters : List Json := []
  methods : List (String × SpecMethod) := []

/-- A specification restricted to its `paths` tree (the `openapi`,
`info` and `servers` fields are copied verbatim by `generateSchema`
and carry no claim-relevant content). -/
structure ApiSpec where
  paths : List (String × PathItem) := []

/-- The per-method slot of the curated example file:
`path -> method -> (request examples, response examples per status)`. -/
structure MethodExamples where
  request : List (String × Json) := []
  response : List (String × List (String × Json)) := []

/-- The skeleton operation `generateSchema` synthesizes (src/lib.ts
lines 897-913) for a curated method with no prior-spec entry. -/
def synthMethod (p m : String) : SpecMethod :=
  let oid := deriveOperationId m p
  { operationId := oid
  , summary := oid
  , description := Json.str ""
  , parameters := []
  , responses := []
  , tags := ["UNKNOWN"]
  , metaOriginalPath := "https://app.crunch.io/api" ++ p
  , metaElement := none
  , requestBody := none }

/-- A `$ref` cross-reference to a shared schema component. -/
def shojiRef (nm : String) : Json :=
  Json.obj [("$ref", Json.str ("#/components/schemas/" ++ nm))]

/-- Discriminator post-processing of src/lib.ts lines 922-941 (repeated
at 957-976): when the inferred schema has a truthy `properties.element`
and the first published example's `element` is one of the three
recognized shoji variants, that property is replaced by a `$ref` to the
shared component; anything else leaves the schema untouched. -/
def elementRewrite (js fe : Json) : Json :=
  match js with
  | Json.obj fs =>
    match List.lookup "properties" fs with
    | some (Json.obj pfs) =>
      match List.lookup "element" pfs with
      | some el =>
        if jsTruthy el then
          match jsGet fe "element" with
          | some (Json.str s) =>
            if s = "shoji:entity" then
              Json.obj (updEntry fs "properties"
                (Json.obj (updEntry pfs "element" (shojiRef "Shoji-entity-element"))))
            else if s = "shoji:catalog" then
              Json.obj (updEntry fs "properties"
                (Json.obj (updEntry pfs "element" (shojiRef "Shoji-catalog-element"))))
            else if s = "shoji:view" then
              Json.obj (updEntry fs "properties"
                (Json.obj (updEntry pfs "element" (shojiRef "Shoji-view-element"))))
            else js
          | _ => js
        else js
      | none => js
    | _ => js
  | _ => js

/-- Attachment of the inferred request schema and published examples
(src/lib.ts lines 942-948).  A prior multipart body has no
`application/json` content, so the schema assignment throws on
`undefined` with no catch in `generateSchema`: the run dies (`none`). -/
def applySchemaToRequest (mo : SpecMethod) (sch : Json) (pubs : List (String × Json)) :
    Option SpecMethod :=
  match mo.requestBody with
  | some RequestBody.multipartContent => none
  | _ => some { mo with requestBody := some (RequestBody.jsonContent { schema := sch, examples := pubs }) }

/-- Attachment of an inferred response schema and published examples
(src/lib.ts lines 977-985): a missing response entry is created with a
content slot; an existing entry keeps its description; an existing
entry without a content slot makes the assignment throw (`none`). -/
def applySchemaToResponse (mo : SpecMethod) (statusCode : String) (sch : Json)
    (pubs : List (String × Json)) : Option SpecMethod :=
  match List.lookup statusCode mo.responses with
  | none =>
    some { mo with responses := mo.responses ++
      [(statusCode, { description := none, content := some { schema := sch, examples := pubs } })] }
  | some robj =>
    match robj.content with
    | none => none
    | some _ =>
      let newResponses := updEntry mo.responses statusCode
        { description := robj.description, content := some { schema := sch, examples := pubs } }
      some { mo with responses := newResponses }

/-- The request-slot pass of `generateSchema` for one method
(src/lib.ts lines 917-949).  `infer` stands for the awaited
`quicktypeJSON` call and `toOA` for `toOpenApiSchema`, the two external
collaborators, both invoked sequentially.  A validation failure
(`exit(1)`) aborts the whole run. -/
def processRequestSlot (infer : String → List String → Json) (toOA : Json → Json)
    (p m : String) (reqExs : List (String × Json)) (mo : SpecMethod) : Option SpecMethod :=
  if reqExs.length = 0 then some mo
  else
    match validateExampleList reqExs with
    | none => none
    | some stats =>
      match stats.firstExample with
      | none => none
      | some fe =>
        let js := infer (String.intercalate "-" [p, m, "request"]) stats.allExamples
        applySchemaToRequest mo (toOA (elementRewrite js fe)) stats.publishExamples

/-- The response-slot loop of `generateSchema` for one method
(src/lib.ts lines 951-987); note the source reuses the literal
`'request'` in the inference type name. -/
def processResponseSlots (infer : String → List String → Json) (toOA : Json → Json)
    (p m : String) :
    List (String × List (String × Json)) → SpecMethod → Option SpecMethod
  | [], mo => some mo
  | (statusCode, exs) :: rest, mo =>
    if exs.length = 0 then processResponseSlots infer toOA p m rest mo
    else
      match validateExampleList exs with
      | none => none
      | some stats =>
        match stats.firstExample with
        | none => none
        | some fe =>
          let js := infer (String.intercalate "-" [p, m, "request"]) stats.allExamples
          match applySchemaToResponse mo statusCode (toOA (elementRewrite js fe)) stats.publishExamples with
          | none => none
          | some mo2 => processResponseSlots infer toOA p m rest mo2

/-- Both slot passes of `generateSchema` for one curated method. -/
def processMethod (infer : String → List String → Json) (toOA : Json → Json)
    (p m : String) (mex : MethodExamples) (mo : SpecMethod) : Option SpecMethod :=
  match processRequestSlot infer toOA p m mex.request mo with
  | none => none
  | some mo1 => processResponseSlots infer toOA p m mex.response mo1

/-- The method loop of `generateSchema` over one curated path
(src/lib.ts lines 894-988): missing methods are synthesized, then each
method's slots are processed in place. -/
def processPath (infer : String → List String → Json) (toOA : Json → Json) (p : String) :
    List (String × MethodExamples) → List (String × SpecMethod) →
    Option (List (String × SpecMethod))
  | [], item => some item
  | (m, mex) :: rest, item =>
    let item1 := if (List.lookup m item).isSome then item else item ++ [(m, synthMethod p m)]
    match List.lookup m item1 with
    | none => none
    | some mo =>
      match processMethod infer toOA p m mex mo with
      | none => none
      | some moNew => processPath infer toOA p rest (updEntry item1 m moNew)

/-- The path loop of `generateSchema` (src/lib.ts lines 885-989): the
new spec's paths are exactly the curated file's paths, each starting
from the prior spec's entry when present and from an empty object
otherwise. -/
def generateSchemaPaths (infer : String → List String → Json) (toOA : Json → Json)
    (oldPaths : List (String × PathItem)) :
    List (String × List (String × MethodExamples)) → Option (List (String × PathItem))
  | [] => some []
  | (p, mex) :: rest =>
    let base := (List.lookup p oldPaths).getD { parameters := [], methods := [] }
    match processPath infer toOA p mex base.methods with
    | none => none
    | some ms =>
      match generateSchemaPaths infer toOA oldPaths rest with
      | none => none
      | some l => some ((p, { parameters := base.parameters, methods := ms }) :: l)

/-- Spec reconciler `generateSchema` from src/lib.ts lines 876-993,
parameterized by the external schema inferencer and OpenAPI converter.
The result's paths are rebuilt solely from the curated example file;
`none` models a halted run (curation validation `exit(1)` or an uncaught
throw while attaching a schema). -/
def generateSchema (infer : String → List String → Json) (toOA : Json → Json)
    (masterExamples : List (String × List (String × MethodExamples)))
    (oldSpec : ApiSpec) : Option ApiSpec :=
  (generateSchemaPaths infer toOA oldSpec.paths masterExamples).map (fun l => { paths := l })

/-! ## General lemmas about the embedded primitives -/

theorem replaceSegFuel_eq_self_of_not_contains (p r : List Char) :
    ∀ (fuel : Nat) (s : List Char), s.length < fuel → containsSeg s p = false →
      replaceSegFuel fuel s p r = s := by
  intro fuel
  induction fuel with
  | zero => intro s hlen _; omega
  | succ n ih =>
    intro s hlen hc
    cases s with
    | nil =>
      simp only [containsSeg] at hc
      simp [replaceSegFuel, hc]
    | cons c rest =>
      simp only [containsSeg, Bool.or_eq_false_iff] at hc
      obtain ⟨hpre, hrest⟩ := hc
      have hpe : p.isEmpty = false := by
        cases p with
        | nil => simp [List.isPrefixOf] at hpre
        | cons a as => rfl
      simp only [replaceSegFuel]
      have h1 : ¬(p ≠ [] ∧ p.isPrefixOf (c :: rest) = true) := by
        intro hcon
        rw [hpre] at hcon
        exact absurd hcon.2 (by simp)
      rw [if_neg h1, if_neg (by simp [hpe])]
      have hlen2 : rest.length < n := by
        simp only [List.length_cons] at hlen
        omega
      rw [ih rest hlen2 hrest]

theorem replaceAllStr_eq_self_of_not_contains (t pat repl : String)
    (h : strContains t pat = false) : replaceAllStr t pat repl = t := by
  unfold replaceAllStr replaceSeg
  rw [replaceSegFuel_eq_self_of_not_contains pat.data repl.data (t.data.length + 1) t.data
    (by omega) h]

theorem lookup_updEntry_ne {β : Type} (l : List (String × β)) (key k : String) (v : β)
    (hne : k ≠ key) : List.lookup k (updEntry l key v) = List.lookup k l := by
  induction l with
  | nil => rfl
  | cons hd tl ih =>
    cases hd with
    | mk hk hv =>
      by_cases he : hk = key
      · subst he
        simp only [updEntry, if_pos rfl]
        have hb : (k == hk) = false := beq_eq_false_iff_ne.mpr hne
        simp [List.lookup, hb]
      · simp only [updEntry, if_neg he]
        simp only [List.lookup]
        by_cases hkk : (k == hk) = true
        · simp [hkk]
        · simp only [Bool.not_eq_true] at hkk
          simp [hkk, ih]

theorem lookup_append_first {β : Type} (k : String) (l1 l2 : List (String × β)) :
    List.lookup k (l1 ++ l2) =
      (match List.lookup k l1 with
       | some v => some v
       | none => List.lookup k l2) := by
  induction l1 with
  | nil => simp [List.lookup]
  | cons hd tl ih =>
    simp only [List.cons_append, List.lookup]
    by_cases hk : (k == hd.1) = true
    · simp [hk]
    · simp only [Bool.not_eq_true] at hk
      simp [hk, ih]

theorem map_fst_enumFrom_build {α γ : Type} (g : Nat → γ) :
    ∀ (n : Nat) (l : List α),
      ((List.enumFrom n l).map (fun iv => (g iv.1, iv.2))).map Prod.fst
        = (List.range' n l.length).map g := by
  intro n l
  induction l generalizing n with
  | nil => rfl
  | cons x xs ih => simp [List.enumFrom, List.range', ih]

theorem map_snd_enumFrom_build {α γ : Type} (g : Nat → γ) :
    ∀ (n : Nat) (l : List α),
      ((List.enumFrom n l).map (fun iv => (g iv.1, iv.2))).map Prod.snd = l := by
  intro n l
  induction l generalizing n with
  | nil => rfl
  | cons x xs ih => simp [List.enumFrom, ih]

/-! ## Claim C5: idempotence of path normalization -/

/-- C5 counterexample: with the configured rule list `[a -> aa]` the
template `aa` is itself the output of normalizing the raw URL `a`, yet
normalizing it again yields `aaaa`.  The claim "applying the normalizer
to an output returns it unchanged, for every configured rule list" is
therefore false on `filterUrl`. -/
theorem filterUrl_not_idempotent :
    filterUrl [("a", "aa")] "a" = "aa" ∧
    filterUrl [("a", "aa")] (filterUrl [("a", "aa")] "a") ≠ filterUrl [("a", "aa")] "a" := by
  constructor
  · rfl
  · decide

/-- C5 (amended): normalization leaves a template unchanged whenever no
configured pattern still occurs in it; the unrestricted claim fails
because a rule's replacement may itself contain (or create) a new match,
as the counterexample shows. -/
theorem filterUrl_fixed_when_no_pattern_occurs (rules : List (String × String)) (t : String)
    (h : ∀ pr ∈ rules, strContains t pr.1 = false) :
    filterUrl rules t = t := by
  induction rules with
  | nil => rfl
  | cons hd tl ih =>
    simp only [filterUrl, List.foldl] at ih ⊢
    rw [replaceAllStr_eq_self_of_not_contains t hd.1 hd.2 (h hd (by simp))]
    exact ih (fun pr hpr => h pr (List.mem_cons_of_mem hd hpr))

/-- C5 witness: a concrete rule list whose pattern does not occur in the
template, normalized to itself. -/
theorem filterUrl_fixed_when_no_pattern_occurs_witness :
    filterUrl [("x", "y")] "ab" = "ab" :=
  filterUrl_fixed_when_no_pattern_occurs [("x", "y")] "ab" (by decide)

/-! ## Claim C4: the response-classification table -/

/-- C4: the `case 204` / `post` cell of `addResponse` stores its fixed
text under the response key `"202"`, not under `"204"` as the claim
(key equals the decimal string of the status code) requires; the
surrounding cells all use their own status, making this a copy-paste
slip from the 202 block. -/
theorem addResponse_204_post_stores_202 :
    addResponse 204 "post" [] =
      [("202", { description := some "Item created", content := none })] ∧
    List.lookup "204" (addResponse 204 "post" []) = none := by
  exact ⟨rfl, rfl⟩

/-! ## Claim C2: scenario B, folding a single-key response body -/

/-- The operation state of scenario B before any folding: `addResponse`
has classified status 200 for a `get`, no content slot exists yet. -/
def scenarioBMethod : SpecMethod :=
  { responses := [("200", { description := some "Success", content := none })] }

/-- The response body of scenario B. -/
def scenarioBBody : ResponsePayload :=
  ResponsePayload.jsonBody (Json.obj [("a", Json.num 1)])

/-- The examples map of a response pool, `none` when the status has no
content slot. -/
def respExamplesAt (m : SpecMethod) (st : String) : Option (List (String × Json)) :=
  (List.lookup st m.responses).bind (fun r => r.content.map (fun c => c.examples))

/-- C2 counterexample: folding the body `(a:1)` twice into the empty
pool leaves the pool with no example content at all, so it does not
hold exactly one stored example named `example-0001` with accumulator
`(a:1)` as the claim states. -/
theorem mergeResponseExample_scenarioB_fails :
    respExamplesAt
      (mergeResponseExample (mergeResponseExample scenarioBMethod "200" scenarioBBody)
        "200" scenarioBBody) "200" = none ∧
    (none : Option (List (String × Json)))
      ≠ some [("example-0001", Json.obj [("a", Json.num 1)])] := by
  exact ⟨rfl, by simp⟩

/-- C2 (amended): folding the response body `(a:1)` twice into the empty
pool leaves the operation completely unchanged — after stripping the
`traceback` key the body has only one top-level key, and
`mergeResponseExample` only folds bodies with more than one remaining
top-level key, so no example and no accumulator is ever created. -/
theorem mergeResponseExample_single_key_not_folded :
    mergeResponseExample (mergeResponseExample scenarioBMethod "200" scenarioBBody)
      "200" scenarioBBody = scenarioBMethod := by
  rfl

/-! ## Claims C6 and C7: the curation validator -/

/-- C6 counterexample: a pool with one flagged example is re-keyed to
`example-1` — the padding width `1 / 10 + 1 = 1` produces no leading
zeros — so the published key is not `example-0001` as the claim's
naming scheme requires. -/
theorem validateExampleList_width_one_naming :
    (validateExampleList [("gexample-a", Json.num 1)]).map
        (fun r => r.publishExamples.map Prod.fst) = some ["example-1"] ∧
    some ["example-1"] ≠ some ["example-0001"] := by
  exact ⟨rfl, by decide⟩

/-- C6 (amended): for every pool that passes validation the published
examples are re-keyed into the contiguous gap-free sequence
`example-1, example-2, …` zero-padded to width `count / 10 + 1` (where
`count` is the number of flagged examples) — for fewer than ten flagged
examples the keys carry no leading zeros, not the fixed four-digit
`example-0001` shape — in their original flagged order and with every
example value unchanged. -/
theorem validateExampleList_renumbering (pool : List (String × Json)) (r : ExampleStats)
    (h : validateExampleList pool = some r) :
    r.publishExamples.map Prod.fst =
      (List.range (flaggedExamples pool).length).map
        (fun i => "example-" ++ pad (i + 1) ((flaggedExamples pool).length / 10 + 1)) ∧
    r.publishExamples.map Prod.snd = (flaggedExamples pool).map (fun kv => kv.2) := by
  unfold validateExampleList at h
  by_cases hcond : pool.length ≠ 0 ∧ ((flaggedExamples pool).map (fun kv => kv.2)).length = 0
  · rw [if_pos hcond] at h
    exact absurd h (by simp)
  · rw [if_neg hcond] at h
    injection h with h2
    subst h2
    constructor
    · show ((List.enumFrom 0 ((flaggedExamples pool).map (fun kv => kv.2))).map _).map Prod.fst = _
      rw [map_fst_enumFrom_build (fun i =>
        "example-" ++ pad (i + 1) (((flaggedExamples pool).map (fun kv => kv.2)).length / 10 + 1))]
      rw [List.length_map, ← List.range_eq_range']
    · show ((List.enumFrom 0 ((flaggedExamples pool).map (fun kv => kv.2))).map _).map Prod.snd = _
      rw [map_snd_enumFrom_build (fun i =>
        "example-" ++ pad (i + 1) (((flaggedExamples pool).map (fun kv => kv.2)).length / 10 + 1))]

/-- C6 witness: the renumbering theorem applied to a two-example pool
with one flagged example. -/
theorem validateExampleList_renumbering_witness :
    ({ allExamples := ["5", "\x7b\x7d"], publishExamples := [("example-1", Json.num 5)],
       firstExample := some (Json.num 5) } : ExampleStats).publishExamples.map Prod.fst =
      (List.range (flaggedExamples [("gexample-a", Json.num 5), ("b", Json.obj [])]).length).map
        (fun i => "example-" ++ pad (i + 1)
          ((flaggedExamples [("gexample-a", Json.num 5), ("b", Json.obj [])]).length / 10 + 1)) ∧
    ({ allExamples := ["5", "\x7b\x7d"], publishExamples := [("example-1", Json.num 5)],
       firstExample := some (Json.num 5) } : ExampleStats).publishExamples.map Prod.snd =
      (flaggedExamples [("gexample-a", Json.num 5), ("b", Json.obj [])]).map (fun kv => kv.2) :=
  validateExampleList_renumbering [("gexample-a", Json.num 5), ("b", Json.obj [])] _ rfl

/-- C7: the curation validator halts the run (`exit(1)`, modelled as
`none`) exactly when the pool holds at least one example and none of
the example names carries the `gexample` publication marker; the empty
pool passes with an empty published set. -/
theorem validateExampleList_curation_gate (pool : List (String × Json)) :
    (validateExampleList pool = none ↔ pool ≠ [] ∧ flaggedExamples pool = []) ∧
    validateExampleList [] =
      some { allExamples := [], publishExamples := [], firstExample := none } := by
  refine ⟨?_, rfl⟩
  unfold validateExampleList
  by_cases hcond : pool.length ≠ 0 ∧ ((flaggedExamples pool).map (fun kv => kv.2)).length = 0
  · rw [if_pos hcond]
    constructor
    · intro _
      constructor
      · intro hnil
        rw [hnil] at hcond
        simp at hcond
      · have h2 := hcond.2
        rw [List.length_map] at h2
        exact List.length_eq_zero.mp h2
    · intro _
      rfl
  · rw [if_neg hcond]
    constructor
    · intro hsome
      exact absurd hsome (by simp)
    · rintro ⟨hne, hflag⟩
      refine absurd ⟨?_, ?_⟩ hcond
      · intro hlen
        exact hne (List.length_eq_zero.mp hlen)
      · rw [List.length_map, hflag]
        rfl

/-- C7 witness: a one-example pool with no flagged name fails
validation. -/
theorem validateExampleList_curation_gate_witness :
    validateExampleList [("a", Json.null)] = none :=
  (validateExampleList_curation_gate [("a", Json.null)]).1.mpr ⟨by simp, rfl⟩

/-! ## Claim C9: request bodies of failed transactions are not folded -/

/-- C9: per the guard on src/lib.ts line 485 a captured transaction
whose response status is at least 400 never reaches
`mergeRequestExample`, so a stream of such transactions leaves the
operation — in particular an empty request example pool — exactly as it
was. -/
theorem request_body_not_folded_on_client_error (es : List HarRequestEvent) (m : SpecMethod)
    (h : ∀ e ∈ es, 400 ≤ e.status) :
    es.foldl applyRequestMerge m = m := by
  induction es generalizing m with
  | nil => rfl
  | cons e rest ih =>
    have he : 400 ≤ e.status := h e (by simp)
    have hstep : applyRequestMerge m e = m := by
      unfold applyRequestMerge
      rw [if_neg]
      intro hcon
      omega
    simp only [List.foldl, hstep]
    exact ih m (fun e2 he2 => h e2 (List.mem_cons_of_mem e he2))

/-- C9 witness: a failed `POST` with a non-empty body folds nothing into
the fresh operation. -/
theorem request_body_not_folded_on_client_error_witness :
    [({ bodySize := 12, status := 400,
        postData := RequestPayload.jsonData (Json.obj [("a", Json.num 1)]) } : HarRequestEvent),
     ({ bodySize := 3, status := 500,
        postData := RequestPayload.jsonData (Json.obj [("b", Json.num 2)]) } : HarRequestEvent)
    ].foldl applyRequestMerge {} = ({} : SpecMethod) := by
  apply request_body_not_folded_on_client_error
  intro e he
  simp only [List.mem_cons, List.not_mem_nil, or_false] at he
  rcases he with he | he <;> (subst he; norm_num)

/-! ## Claim C10: a binary-first request slot silently discards JSON bodies -/

/-- C10: once an operation's request body slot holds the fixed
`multipart/form-data` upload shape (installed by the binary branch of
`mergeRequestExample`), folding any later JSON body is a no-op — the
read of the missing `application/json` content throws, the local catch
swallows it, no example is recorded and the multipart shape persists. -/
theorem mergeRequestExample_json_after_binary_noop (m : SpecMethod) (v : Json)
    (h : m.requestBody = some RequestBody.multipartContent) :
    mergeRequestExample m (RequestPayload.jsonData v) = m ∧
    (mergeRequestExample m (RequestPayload.jsonData v)).requestBody =
      some RequestBody.multipartContent := by
  have hm : mergeRequestExample m (RequestPayload.jsonData v) = m := by
    simp [mergeRequestExample, h]
  exact ⟨hm, by rw [hm, h]⟩

/-- C10 witness: the discard theorem at a concrete binary-first state
and a concrete JSON body. -/
theorem mergeRequestExample_json_after_binary_noop_witness :
    mergeRequestExample { requestBody := some RequestBody.multipartContent }
      (RequestPayload.jsonData (Json.obj [("a", Json.num 1)])) =
      ({ requestBody := some RequestBody.multipartContent } : SpecMethod) ∧
    (mergeRequestExample { requestBody := some RequestBody.multipartContent }
      (RequestPayload.jsonData (Json.obj [("a", Json.num 1)]))).requestBody =
      some RequestBody.multipartContent :=
  mergeRequestExample_json_after_binary_noop
    { requestBody := some RequestBody.multipartContent } (Json.obj [("a", Json.num 1)]) rfl

/-! ## Claim C8: duplicate submissions do not mutate the pool -/

/-- C8: folding a value whose serialization equals the serialization of
some example already stored in the pool (for responses, after the
`traceback` stripping the code applies before comparing) leaves the
operation object exactly as it was: the duplicate check at src/lib.ts
lines 576-580 and 643-647 returns before any mutation. -/
theorem mergeExample_duplicate_noop (m : SpecMethod) (raw : Json) :
    (∀ c, m.requestBody = some (RequestBody.jsonContent c) →
       c.examples.any (fun kv => stringify kv.2 == stringify raw) = true →
       mergeRequestExample m (RequestPayload.jsonData raw) = m) ∧
    (∀ st robj c, List.lookup st m.responses = some robj → robj.content = some c →
       c.examples.any (fun kv => stringify kv.2 == stringify (deleteKey raw "traceback")) = true →
       mergeResponseExample m st (ResponsePayload.jsonBody raw) = m) := by
  constructor
  · intro c hc hdup
    simp only [mergeRequestExample, hc]
    unfold foldJsonIntoExamples
    rw [if_pos hdup]
    rw [← hc]
  · intro st robj c hst hcont hdup
    simp only [mergeResponseExample]
    by_cases hg : isNullJson (deleteKey raw "traceback") = false ∧
        1 < topKeyCount (deleteKey raw "traceback")
    · rw [if_pos hg]
      simp only [hst, hcont]
      rw [if_pos hdup]
    · rw [if_neg hg]

/-- The duplicate value used by the C8 witness. -/
def dupValue : Json := Json.obj [("a", Json.num 1), ("b", Json.num 2)]

/-- A content slot already storing the C8 witness value. -/
def dupContent : JsonContent := { examples := [("example-0001", dupValue)] }

/-- The C8 witness response entry. -/
def dupResponseObj : ResponseObj := { description := some "Success", content := some dupContent }

/-- A state whose request pool and status-200 response pool both
already store the C8 witness value. -/
def dupMethod : SpecMethod :=
  { responses := [("200", dupResponseObj)],
    requestBody := some (RequestBody.jsonContent dupContent) }

/-- C8 witness: the duplicate value `(a:1, b:2)` folded into a state
whose request pool and status-200 response pool already store it. -/
theorem mergeExample_duplicate_noop_witness :
    mergeRequestExample dupMethod (RequestPayload.jsonData dupValue) = dupMethod ∧
    mergeResponseExample dupMethod "200" (ResponsePayload.jsonBody dupValue) = dupMethod := by
  constructor
  · exact (mergeExample_duplicate_noop dupMethod dupValue).1 dupContent rfl rfl
  · exact (mergeExample_duplicate_noop dupMethod dupValue).2 "200" dupResponseObj dupContent
      rfl rfl rfl

/-! ## Claim C3: the accumulator versus the left fold of all values -/

/-- The specification's accumulator notion, written from the spec's
words for comparison with the code: the left fold of deep-merge with
array-overwrite over the submitted values, starting from the empty
object. -/
def specFoldMerge (vs : List Json) : Json :=
  vs.foldl jsMerge (Json.obj [])

/-- The `example-0001` accumulator entry of an operation's request
example pool. -/
def requestAccumulatorAt (m : SpecMethod) : Option Json :=
  match m.requestBody with
  | some (RequestBody.jsonContent c) => List.lookup "example-0001" c.examples
  | _ => none

/-- C3 counterexample: folding `(a:[1])`, `(a:[2])`, `(a:[1])` in that
order leaves the accumulator at `(a:[2])` — the third fold is discarded
as a serialized duplicate of the stored second example before the
accumulator merge runs — while the left fold of all three values under
array-overwrite deep-merge is `(a:[1])`. -/
theorem mergeRequestExample_accumulator_not_full_fold :
    requestAccumulatorAt
      ([RequestPayload.jsonData (Json.obj [("a", Json.arr [Json.num 1])]),
        RequestPayload.jsonData (Json.obj [("a", Json.arr [Json.num 2])]),
        RequestPayload.jsonData (Json.obj [("a", Json.arr [Json.num 1])])].foldl
        mergeRequestExample {}) = some (Json.obj [("a", Json.arr [Json.num 2])]) ∧
    specFoldMerge
      [Json.obj [("a", Json.arr [Json.num 1])],
       Json.obj [("a", Json.arr [Json.num 2])],
       Json.obj [("a", Json.arr [Json.num 1])]] = Json.obj [("a", Json.arr [Json.num 1])] ∧
    Json.obj [("a", Json.arr [Json.num 2])] ≠ Json.obj [("a", Json.arr [Json.num 1])] := by
  refine ⟨rfl, rfl, ?_⟩
  simp

/-- One fold step preserves the shape "the accumulator heads the
examples map and equals the deep-merge fold of the stored example
values behind it". -/
theorem foldJsonIntoExamples_shape (c : JsonContent) (data : Json) (rest : List (String × Json))
    (hc : c.examples = ("example-0001", specFoldMerge (rest.map (fun kv => kv.2))) :: rest) :
    ∃ rest2, (foldJsonIntoExamples c data).examples =
      ("example-0001", specFoldMerge (rest2.map (fun kv => kv.2))) :: rest2 := by
  unfold foldJsonIntoExamples
  rw [hc]
  by_cases hdup : ((("example-0001", specFoldMerge (rest.map (fun kv => kv.2))) :: rest).any
      (fun kv => stringify kv.2 == stringify data)) = true
  · rw [if_pos hdup]
    exact ⟨rest, hc⟩
  · rw [if_neg hdup]
    have hl : List.lookup "example-0001"
        (("example-0001", specFoldMerge (rest.map (fun kv => kv.2))) :: rest)
        = some (specFoldMerge (rest.map (fun kv => kv.2))) := by
      simp [List.lookup]
    simp only [hl]
    by_cases hnull : isNullJson data = true
    · rw [if_pos hnull]
      exact ⟨rest, hc⟩
    · rw [if_neg hnull]
      refine ⟨rest ++ [("example-" ++ pad
        ((updEntry (("example-0001", specFoldMerge (rest.map (fun kv => kv.2))) :: rest)
          "example-0001"
          (jsMerge (specFoldMerge (rest.map (fun kv => kv.2))) data)).length + 1) 4, data)], ?_⟩
      simp [updEntry, specFoldMerge, List.foldl_append]

/-- The accumulator invariant for the request example pool. -/
def requestAccInv (m : SpecMethod) : Prop :=
  ∀ c, m.requestBody = some (RequestBody.jsonContent c) →
    ∃ rest, c.examples = ("example-0001", specFoldMerge (rest.map (fun kv => kv.2))) :: rest

theorem mergeRequestExample_preserves_inv (m : SpecMethod) (pd : RequestPayload)
    (h : requestAccInv m) : requestAccInv (mergeRequestExample m pd) := by
  intro c hc
  cases pd with
  | binaryData =>
    cases hm : m.requestBody with
    | none =>
      simp [mergeRequestExample, hm] at hc
    | some rb =>
      simp only [mergeRequestExample, hm] at hc
      exact h c (hm.trans hc)
  | malformedData =>
    simp only [mergeRequestExample] at hc
    exact h c hc
  | jsonData data =>
    cases hm : m.requestBody with
    | none =>
      simp only [mergeRequestExample, hm, Option.some.injEq,
        RequestBody.jsonContent.injEq] at hc
      obtain ⟨rest2, hr⟩ := foldJsonIntoExamples_shape
        { examples := [("example-0001", Json.obj [])] } data [] rfl
      rw [← hc]
      exact ⟨rest2, hr⟩
    | some rb =>
      cases rb with
      | jsonContent c0 =>
        simp only [mergeRequestExample, hm, Option.some.injEq,
          RequestBody.jsonContent.injEq] at hc
        obtain ⟨rest, hrest⟩ := h c0 hm
        obtain ⟨rest2, hr⟩ := foldJsonIntoExamples_shape c0 data rest hrest
        rw [← hc]
        exact ⟨rest2, hr⟩
      | multipartContent =>
        simp [mergeRequestExample, hm] at hc

theorem foldl_mergeRequestExample_inv (vs : List RequestPayload) (m : SpecMethod)
    (h : requestAccInv m) : requestAccInv (vs.foldl mergeRequestExample m) := by
  induction vs generalizing m with
  | nil => exact h
  | cons v rest ih => exact ih _ (mergeRequestExample_preserves_inv m v h)

/-- C3 (amended): starting from an empty request body slot, after
folding any sequence of payloads the `example-0001` accumulator equals
the left fold — under deep-merge with array-overwrite — of the values
actually retained as individual examples, in fold order.  Values
discarded as serialized duplicates are not re-merged, so the
accumulator can differ from the left fold of all submitted values, as
the counterexample shows. -/
theorem mergeRequestExample_accumulator_folds_stored (vs : List RequestPayload)
    (m0 : SpecMethod) (h0 : m0.requestBody = none) (c : JsonContent)
    (hc : (vs.foldl mergeRequestExample m0).requestBody = some (RequestBody.jsonContent c)) :
    ∃ rest, c.examples = ("example-0001", specFoldMerge (rest.map (fun kv => kv.2))) :: rest := by
  refine foldl_mergeRequestExample_inv vs m0 ?_ c hc
  intro c2 hc2
  rw [h0] at hc2
  exact Option.noConfusion hc2

/-- C3 witness: the accumulator theorem applied to two distinct folded
values, whose pool stores them as `example-0002` and `example-0003`. -/
theorem mergeRequestExample_accumulator_folds_stored_witness :
    ∃ rest, ({ examples :=
        [("example-0001", Json.obj [("a", Json.num 1), ("b", Json.num 2)]),
         ("example-0002", Json.obj [("a", Json.num 1)]),
         ("example-0003", Json.obj [("a", Json.num 1), ("b", Json.num 2)])] } :
        JsonContent).examples =
      ("example-0001", specFoldMerge (rest.map (fun kv => kv.2))) :: rest :=
  mergeRequestExample_accumulator_folds_stored
    [RequestPayload.jsonData (Json.obj [("a", Json.num 1)]),
     RequestPayload.jsonData (Json.obj [("a", Json.num 1), ("b", Json.num 2)])]
    {} rfl _ rfl

/-! ## Claim C1: what the reconciler preserves and what it drops -/

/-- The method loop of `generateSchema` never touches a method key the
curated file does not mention: its entry in the processed path item is
exactly its entry in the starting item. -/
theorem processPath_preserves_method (infer : String → List String → Json) (toOA : Json → Json)
    (p : String) (mex : List (String × MethodExamples)) :
    ∀ (item out : List (String × SpecMethod)) (m : String),
      List.lookup m mex = none →
      processPath infer toOA p mex item = some out →
      List.lookup m out = List.lookup m item := by
  induction mex with
  | nil =>
    intro item out m _ hrun
    simp only [processPath, Option.some.injEq] at hrun
    rw [← hrun]
  | cons hd rest ih =>
    intro item out m hm hrun
    cases hd with
    | mk m0 me0 =>
      simp only [List.lookup] at hm
      by_cases hmm : (m == m0) = true
      · simp only [hmm] at hm
        exact absurd hm (by simp)
      · simp only [Bool.not_eq_true] at hmm
        simp only [hmm] at hm
        have hne : m ≠ m0 := by
          intro he
          rw [he] at hmm
          simp at hmm
        simp only [processPath] at hrun
        by_cases hs : (List.lookup m0 item).isSome = true
        · rw [if_pos hs] at hrun
          cases hl : List.lookup m0 item with
          | none => rw [hl] at hs; simp at hs
          | some mo =>
            simp only [hl] at hrun
            cases hpm : processMethod infer toOA p m0 me0 mo with
            | none =>
              simp only [hpm] at hrun
              exact absurd hrun (by simp)
            | some moNew =>
              simp only [hpm] at hrun
              rw [ih (updEntry item m0 moNew) out m hm hrun]
              exact lookup_updEntry_ne item m0 m moNew hne
        · rw [if_neg hs] at hrun
          cases hl : List.lookup m0 (item ++ [(m0, synthMethod p m0)]) with
          | none =>
            simp only [hl] at hrun
            exact absurd hrun (by simp)
          | some mo =>
            simp only [hl] at hrun
            cases hpm : processMethod infer toOA p m0 me0 mo with
            | none =>
              simp only [hpm] at hrun
              exact absurd hrun (by simp)
            | some moNew =>
              simp only [hpm] at hrun
              rw [ih (updEntry (item ++ [(m0, synthMethod p m0)]) m0 moNew) out m hm hrun]
              rw [lookup_updEntry_ne _ m0 m moNew hne]
              rw [lookup_append_first]
              cases hli : List.lookup m item with
              | none =>
                simp only [List.lookup]
                have hb : (m == m0) = false := beq_eq_false_iff_ne.mpr hne
                simp [hb]
              | some v => rfl

/-- The empty path item `generateSchema` starts from when the prior
spec does not know a curated path. -/
def emptyPathItem : PathItem := { parameters := [], methods := [] }

/-- The path loop of `generateSchema`: every curated path appears in
the output, built by `processPath` from the prior spec's entry for that
path (or from the empty item). -/
theorem generateSchemaPaths_lookup (infer : String → List String → Json) (toOA : Json → Json)
    (oldPaths : List (String × PathItem))
    (ex : List (String × List (String × MethodExamples))) :
    ∀ (l : List (String × PathItem)) (p : String) (mex : List (String × MethodExamples)),
      generateSchemaPaths infer toOA oldPaths ex = some l →
      List.lookup p ex = some mex →
      ∃ ms, processPath infer toOA p mex
          ((List.lookup p oldPaths).getD emptyPathItem).methods = some ms ∧
        List.lookup p l =
          some { parameters := ((List.lookup p oldPaths).getD emptyPathItem).parameters
               , methods := ms } := by
  induction ex with
  | nil =>
    intro l p mex _ hp
    simp [List.lookup] at hp
  | cons hd rest ih =>
    intro l p mex hrun hp
    cases hd with
    | mk p0 mex0 =>
      simp only [generateSchemaPaths] at hrun
      cases hpp : processPath infer toOA p0 mex0
          ((List.lookup p0 oldPaths).getD emptyPathItem).methods with
      | none =>
        rw [show ((List.lookup p0 oldPaths).getD { parameters := [], methods := [] })
            = ((List.lookup p0 oldPaths).getD emptyPathItem) from rfl] at hrun
        rw [hpp] at hrun
        exact absurd hrun (by simp)
      | some ms0 =>
        rw [show ((List.lookup p0 oldPaths).getD { parameters := [], methods := [] })
            = ((List.lookup p0 oldPaths).getD emptyPathItem) from rfl] at hrun
        rw [hpp] at hrun
        cases hrest : generateSchemaPaths infer toOA oldPaths rest with
        | none => rw [hrest] at hrun; exact absurd hrun (by simp)
        | some l2 =>
          rw [hrest] at hrun
          simp only [Option.some.injEq] at hrun
          subst hrun
          simp only [List.lookup] at hp ⊢
          by_cases hpe : (p == p0) = true
          · have hpeq : p = p0 := by simpa using hpe
            subst hpeq
            rw [hpe] at hp ⊢
            simp only [Option.some.injEq] at hp
            subst hp
            exact ⟨ms0, hpp, rfl⟩
          · simp only [Bool.not_eq_true] at hpe
            rw [hpe] at hp ⊢
            exact ih l2 p mex hrest hp

/-- C1 (amended): for every path the curated example file mentions,
methods of the prior spec that the curated file omits are carried into
the reconciled spec unchanged; but a path present in the prior spec and
absent from the curated file does not appear in the result at all — the
reconciler rebuilds `paths` solely from the curated file, so it is
deletive at the path level (see the counterexample), only the
method-level carry-over of the claim holds. -/
theorem generateSchema_preserves_untouched_methods
    (infer : String → List String → Json) (toOA : Json → Json)
    (ex : List (String × List (String × MethodExamples))) (old ns : ApiSpec)
    (p m : String) (mex : List (String × MethodExamples)) (item : PathItem)
    (hrun : generateSchema infer toOA ex old = some ns)
    (hp : List.lookup p ex = some mex)
    (hold : List.lookup p old.paths = some item)
    (hm : List.lookup m mex = none) :
    ∃ pi, List.lookup p ns.paths = some pi ∧
      List.lookup m pi.methods = List.lookup m item.methods := by
  unfold generateSchema at hrun
  cases hgp : generateSchemaPaths infer toOA old.paths ex with
  | none => rw [hgp] at hrun; exact absurd hrun (by simp)
  | some l =>
    rw [hgp] at hrun
    simp at hrun
    obtain ⟨ms, hms, hlk⟩ := generateSchemaPaths_lookup infer toOA old.paths ex l p mex hgp hp
    rw [hold] at hms hlk
    simp only [Option.getD_some] at hms hlk
    refine ⟨{ parameters := item.parameters, methods := ms }, ?_, ?_⟩
    · rw [← hrun]
      exact hlk
    · exact processPath_preserves_method infer toOA p mex item.methods ms m hm hms

/-- The prior `get` operation used by the C1 counterexample and
witness. -/
def priorMethodC1 : SpecMethod := { operationId := "get-a", summary := "A", tags := ["T"] }

/-- The prior path item holding `priorMethodC1`. -/
def priorItemC1 : PathItem := { parameters := [], methods := [("get", priorMethodC1)] }

/-- The prior specification used by the C1 counterexample and witness:
one path `/a/` with one `get` operation. -/
def priorSpecC1 : ApiSpec := { paths := [("/a/", priorItemC1)] }

/-- C1 counterexample: reconciling `priorSpecC1` against an empty
curated example file succeeds and returns a spec with no paths at all:
the path `/a/` (and its `get` operation) present in the prior spec and
absent from the curated file is removed, so reconciliation does delete
prior-spec operations, contrary to the claim. -/
theorem generateSchema_drops_uncurated_path :
    generateSchema (fun _ _ => Json.null) (fun j => j) [] priorSpecC1 = some { paths := [] } ∧
    List.lookup "/a/" priorSpecC1.paths = some priorItemC1 ∧
    List.lookup "/a/" ({ paths := [] } : ApiSpec).paths = none := by
  exact ⟨rfl, rfl, rfl⟩

/-- The curated example file of the C1 witness: it mentions path `/a/`
with a single `post` method (no example slots), omitting the prior
`get` method. -/
def curatedC1 : List (String × List (String × MethodExamples)) :=
  [("/a/", [("post", { request := [], response := [] })])]

/-- The path item the C1 witness run produces: the prior `get` entry
carried unchanged plus the synthesized `post` skeleton. -/
def reconciledItemC1 : PathItem :=
  { parameters := [], methods := [("get", priorMethodC1), ("post", synthMethod "/a/" "post")] }

/-- The specification the C1 witness run produces. -/
def reconciledC1 : ApiSpec := { paths := [("/a/", reconciledItemC1)] }

/-- C1 witness: reconciling `priorSpecC1` against a curated file that
mentions `/a/` but omits its `get` method carries the `get` operation
over unchanged. -/
theorem generateSchema_preserves_untouched_methods_witness :
    ∃ pi, List.lookup "/a/" reconciledC1.paths = some pi ∧
      List.lookup "get" pi.methods = List.lookup "get" priorItemC1.methods :=
  generateSchema_preserves_untouched_methods (fun _ _ => Json.null) (fun j => j)
    curatedC1 priorSpecC1 reconciledC1 "/a/" "get"
    [("post", { request := [], response := [] })] priorItemC1 rfl rfl rfl rfl
